import Mathlib

/-!
Verification of the client-side resilience/caching utility layer of the BRN
repository: `StorageManager` (expiring key-value cache over AsyncStorage),
`ErrorHandler` (capped, persisted error log), `NetworkManager` (HTTP retry
loop) and `NotificationManager` (preference-gated notification inbox).

Modelling conventions (shallow embedding of the TypeScript source):

* JSON-serializable JavaScript values are modelled by `JsValue`; numbers are
  restricted to integers (every number the managers write is an integer
  millisecond timestamp or user payload).
* `Date.now()` is modelled as the current logical time `now : Nat`, passed to
  each operation; time advances only between operations (the reads inside one
  synchronous body of a method see the same clock value).
* The underlying `AsyncStorage` maps string keys to serialized strings.  A
  stored string is modelled by `RawValue`: either `cache it`, the string
  `stringifyCacheItem it` produced by `JSON.stringify` on a `CacheItem` (which
  `JSON.parse` maps back to `it`), or `corrupt s`, a string on which
  `JSON.parse` (or the subsequent property access) throws.
* JavaScript truthiness on optional numbers (`undefined` and `0` are falsy) is
  modelled by `jsTruthyNat` / the corresponding tests on `Option`.
* Errors thrown and caught inside a method are modelled with `Except`; a
  method that never rejects is a total function.
* Calls whose only effect is on the UI (`Alert.alert`, `console.log`) or on
  the `ErrorHandler` report channel are effect-free in this model and are
  noted where they occur in the source.
-/

/-- JSON-serializable JavaScript values (numbers restricted to integers). -/
inductive JsValue where
  | null : JsValue
  | bool : Bool → JsValue
  | num : Int → JsValue
  | str : String → JsValue
  | arr : List JsValue → JsValue
  | obj : List (String × JsValue) → JsValue

/-- JavaScript truthiness of an optional boolean (an absent property reads as
`undefined`, which is falsy). -/
def jsTruthy : Option Bool → Bool
  | none => false
  | some b => b

/-- JavaScript truthiness of an optional number: `undefined` and `0` are falsy. -/
def jsTruthyNat : Option Nat → Bool
  | none => false
  | some 0 => false
  | some (_ + 1) => true

/-- Test whether a `JsValue` is JavaScript `null` (the check
`value === undefined || value === null` in `StorageManager.setItem`). -/
def JsValue.isNull : JsValue → Bool
  | .null => true
  | _ => false

/-- Property access `v.k` on an arbitrary JavaScript value: defined field of an
object, `undefined` (`none`) otherwise. -/
def JsValue.prop : JsValue → String → Option JsValue
  | .obj fields, k => (fields.find? (fun p => p.1 = k)).map (fun p => p.2)
  | _, _ => none

/-- Lower-case hexadecimal digit, used by the `\u00XX` escapes of
`JSON.stringify`. -/
def hexDigit (n : Nat) : String :=
  if n < 10 then String.singleton (Char.ofNat (48 + n))
  else String.singleton (Char.ofNat (87 + n))

/-- Escaping of a single character inside a JSON string literal, as performed
by `JSON.stringify`. -/
def escapeJsonChar (c : Char) : String :=
  if c = '"' then "\\\""
  else if c = '\\' then "\\\\"
  else if c = '\n' then "\\n"
  else if c = '\t' then "\\t"
  else if c = '\r' then "\\r"
  else if c.toNat = 8 then "\\b"
  else if c.toNat = 12 then "\\f"
  else if c.toNat < 32 then "\\u00" ++ hexDigit (c.toNat / 16) ++ hexDigit (c.toNat % 16)
  else String.singleton c

/-- JSON rendering of a string literal, including the surrounding quotes. -/
def quoteJson (s : String) : String :=
  "\"" ++ String.join (s.data.map escapeJsonChar) ++ "\""

mutual

/-- Rendering of a `JsValue` by `JSON.stringify` (object keys keep insertion
order, exactly as V8 does for the string-keyed object literals of the source). -/
def JsValue.stringify : JsValue → String
  | .null => "null"
  | .bool true => "true"
  | .bool false => "false"
  | .num n => toString n
  | .str s => quoteJson s
  | .arr xs => "[" ++ stringifyArr xs ++ "]"
  | .obj fs => "\x7b" ++ stringifyObj fs ++ "\x7d"

/-- Comma-joined rendering of the elements of a JSON array. -/
def stringifyArr : List JsValue → String
  | [] => ""
  | [x] => x.stringify
  | x :: y :: xs => x.stringify ++ "," ++ stringifyArr (y :: xs)

/-- Comma-joined rendering of the fields of a JSON object. -/
def stringifyObj : List (String × JsValue) → String
  | [] => ""
  | [(k, v)] => quoteJson k ++ ":" ++ v.stringify
  | (k, v) :: f :: fs => quoteJson k ++ ":" ++ v.stringify ++ "," ++ stringifyObj (f :: fs)

end

/-- CacheItem envelope written by `StorageManager.setItem`
(`src/unnamed/part_000`, the `CacheItem<T>` interface): the stored value, the
write-time timestamp, and the optional expiry instant. -/
structure CacheItem where
  data : JsValue
  timestamp : Nat
  expiresAt : Option Nat

/-- Rendering of `JSON.stringify` on a `CacheItem` object
(`JSON.stringify` omits the `expiresAt` key when its value is `undefined`). -/
def stringifyCacheItem (it : CacheItem) : String :=
  "\x7b\"data\":" ++ it.data.stringify ++ ",\"timestamp\":" ++ toString it.timestamp ++
    (match it.expiresAt with
      | some e => ",\"expiresAt\":" ++ toString e
      | none => "") ++ "\x7d"

/-- StorageConfig of `StorageManager`: `maxAge` in milliseconds, `maxSize` in
megabytes, and the (never consulted) `encryption` flag. -/
structure StorageConfig where
  maxAge : Option Nat
  maxSize : Option Rat
  encryption : Bool

/-- Default configuration installed by the `StorageManager` constructor:
24 hours `maxAge`, 50 MB `maxSize`, no encryption. -/
def defaultStorageConfig : StorageConfig :=
  { maxAge := some (24 * 60 * 60 * 1000), maxSize := some 50, encryption := false }

/-- Contents of one `AsyncStorage` slot.  `cache it` stands for the string
`stringifyCacheItem it` (so `JSON.parse` recovers `it`); `corrupt s` stands for
a string whose processing in `getItem` throws (unparsable payload). -/
inductive RawValue where
  | cache : CacheItem → RawValue
  | corrupt : String → RawValue

/-- Underlying `AsyncStorage` store: an association list from keys to stored
strings. -/
def Store := List (String × RawValue)

/-- Lookup in the underlying store (`AsyncStorage.getItem`). -/
def storeGet (s : Store) (k : String) : Option RawValue :=
  (List.find? (fun p => p.1 = k) s).map (fun p => p.2)

/-- Deletion from the underlying store (`AsyncStorage.removeItem`). -/
def storeRemove (s : Store) (k : String) : Store :=
  List.filter (fun p => !(p.1 = k)) s

/-- Overwrite in the underlying store (`AsyncStorage.setItem`). -/
def storeSet (s : Store) (k : String) (v : RawValue) : Store :=
  (k, v) :: storeRemove s k

/-- Byte size of `new Blob([s])`: the UTF-8 byte length of the string. -/
def blobSizeBytes (s : String) : Nat := s.utf8ByteSize

/-- Size in megabytes computed by `setItem`:
`new Blob([serializedValue]).size / (1024 * 1024)`, the exact rational
quotient of the byte size by 1024 * 1024 (`Rat.divInt` is division of the two
integers, producing that rational). -/
def sizeInMB (s : String) : Rat := Rat.divInt (blobSizeBytes s) (1024 * 1024)

/-- Effective size limit `this.config.maxSize || 50` (JavaScript `||`: an
absent or zero `maxSize` falls back to 50). -/
def effectiveMaxSize (cfg : StorageConfig) : Rat :=
  match cfg.maxSize with
  | some q => if q = 0 then 50 else q
  | none => 50

/-- CacheItem built by `setItem`: `timestamp = now` and
`expiresAt = now + maxAge` when `this.config.maxAge` is truthy, `undefined`
otherwise. -/
def mkCacheItem (cfg : StorageConfig) (now : Nat) (value : JsValue) : CacheItem :=
  { data := value
    timestamp := now
    expiresAt :=
      match cfg.maxAge with
      | some (m + 1) => some (now + (m + 1))
      | some 0 => none
      | none => none }

/-- Failure cases of `StorageManager.setItem`; every one is reported to
`ErrorHandler.handleStorageError` and re-thrown to the caller wrapped as
`Failed to store <key>: ...`. -/
inductive SetItemError where
  | invalidKey
  | nullValue
  | sizeExceeded
  deriving DecidableEq, Repr

namespace StorageManager

/-- Shallow embedding of `StorageManager.setItem` (src/unnamed/part_000,
lines 283-316).  Validates the key and value, wraps the value in a
`CacheItem`, serializes it, rejects the write when the serialized size in MB
exceeds `maxSize || 50`, and otherwise persists the serialized string under
`key`.  The returned pair is (outcome for the caller, resulting store); every
error branch occurs before `AsyncStorage.setItem`, so the store is returned
unchanged there. -/
def setItem (cfg : StorageConfig) (store : Store) (now : Nat) (key : String)
    (value : JsValue) : Except SetItemError Unit × Store :=
  if key = "" then (.error .invalidKey, store)
  else if value.isNull then (.error .nullValue, store)
  else
    let item := mkCacheItem cfg now value
    let serialized := stringifyCacheItem item
    if effectiveMaxSize cfg < sizeInMB serialized then (.error .sizeExceeded, store)
    else (.ok (), storeSet store key (.cache item))

/-- Outcome of the single `AsyncStorage.getItem` read performed by
`StorageManager.getItem`: a successful read of the slot, or an underlying
store failure (the read rejecting). -/
inductive ReadOutcome where
  | ok : Option RawValue → ReadOutcome
  | throwRead : ReadOutcome

/-- Error cases of the `try` body of `StorageManager.getItem`. -/
inductive GetItemError where
  | invalidKey
  | readFailed
  | parseFailed
  deriving DecidableEq, Repr

/-- Shallow embedding of the `try` body of `StorageManager.getItem`
(src/unnamed/part_000, lines 318-337): validate the key, read the slot, return
`null` on an absent (or empty, hence falsy) string, parse, and perform the
lazy-expiry check `cacheItem.expiresAt && Date.now() > cacheItem.expiresAt`.
The boolean in the result records whether the branch removed the entry. -/
def getItemTry (read : ReadOutcome) (now : Nat) (key : String) :
    Except GetItemError (Option JsValue × Bool) :=
  if key = "" then .error .invalidKey
  else
    match read with
    | .throwRead => .error .readFailed
    | .ok none => .ok (none, false)
    | .ok (some (.corrupt s)) => if s = "" then .ok (none, false) else .error .parseFailed
    | .ok (some (.cache it)) =>
      match it.expiresAt with
      | some e => if e ≠ 0 ∧ e < now then .ok (none, true) else .ok (some it.data, false)
      | none => .ok (some it.data, false)

/-- Shallow embedding of `StorageManager.getItem` including its `catch`
handler (src/unnamed/part_000, lines 318-352): any error of the `try` body is
caught, reported to `ErrorHandler.handleStorageError`, answered by a
best-effort `AsyncStorage.removeItem(key)` (the removal flag), and turned into
a `null` result.  The `Except` result type records whether the call as a whole
rejects. -/
def getItem (read : ReadOutcome) (now : Nat) (key : String) :
    Except GetItemError (Option JsValue × Bool) :=
  match getItemTry read now key with
  | .ok r => .ok r
  | .error _ => .ok (none, true)

/-- Store-level view of `StorageManager.getItem`: run `getItem` against the
actual slot contents and apply the removal effect to the store. -/
def getItemStore (store : Store) (now : Nat) (key : String) : Option JsValue × Store :=
  match getItem (.ok (storeGet store key)) now key with
  | .ok (v, true) => (v, storeRemove store key)
  | .ok (v, false) => (v, store)
  | .error _ => (none, store)

end StorageManager

/-- Severity levels of an `ErrorLog`
(src/utils/NetworkManager.ts, `ErrorLog` interface). -/
inductive Severity where
  | low
  | medium
  | high
  | critical
  deriving DecidableEq, Repr

/-- Serialized name of a severity level. -/
def severityKey : Severity → String
  | .low => "low"
  | .medium => "medium"
  | .high => "high"
  | .critical => "critical"

/-- ErrorLog record owned by `ErrorHandler`
(src/utils/NetworkManager.ts, lines 256-267).  `stack` is whatever
`metadata?.stack` evaluated to at build time, hence an arbitrary JavaScript
value. -/
structure ErrorLog where
  id : String
  timestamp : Nat
  error : String
  stack : Option JsValue
  component : Option String
  screen : Option String
  userAction : Option String
  severity : Severity
  resolved : Bool
  metadata : Option JsValue

/-- Reading the property named `resolve` on an `ErrorLog` object: the
`ErrorLog` interface declares no such property and no code path ever assigns
one, so the access `log.resolve` in `getUnresolvedErrors`
(src/utils/NetworkManager.ts, line 436) evaluates to `undefined` at runtime. -/
def ErrorLog.resolveField (_ : ErrorLog) : Option Bool := none

/-- Shallow embedding of `ErrorHandler.getUnresolvedErrors`
(src/utils/NetworkManager.ts, lines 435-437):
`this.errorLogs.filter(log => !log.resolve)` — the filter negates the
truthiness of the (nonexistent) `resolve` property. -/
def getUnresolvedErrors (logs : List ErrorLog) : List ErrorLog :=
  logs.filter (fun log => !(jsTruthy log.resolveField))

/-- Shallow embedding of the list mutation performed by
`ErrorHandler.markErrorResolved` (src/utils/NetworkManager.ts, lines 439-445):
find the log with the given id and flip its `resolved` flag in place (the
subsequent re-persist is not needed by the claims about this method). -/
def markErrorResolved (logs : List ErrorLog) (errorId : String) : List ErrorLog :=
  logs.map (fun log => if log.id = errorId then { log with resolved := true } else log)

/-- One field of a serialized object when the underlying value may be
`undefined` (`JSON.stringify` omits such keys). -/
def optField (k : String) : Option JsValue → List (String × JsValue)
  | some v => [(k, v)]
  | none => []

/-- Runtime shape serialized for one `ErrorLog` entry: the object literal of
`logError` has keys in the order id, timestamp, error, stack, component,
screen, severity, resolved, metadata, with `undefined`-valued keys omitted by
`JSON.stringify`. -/
def errorLogToJs (l : ErrorLog) : JsValue :=
  .obj ([("id", .str l.id), ("timestamp", .num l.timestamp), ("error", .str l.error)]
    ++ optField "stack" l.stack
    ++ optField "component" (l.component.map .str)
    ++ optField "screen" (l.screen.map .str)
    ++ [("severity", .str (severityKey l.severity)), ("resolved", .bool l.resolved)]
    ++ optField "metadata" l.metadata)

/-- Arguments of one call to `ErrorHandler.logError`, together with its
environment: the clock value `now` read by `Date.now()` and the random id
suffix `rand` produced by `Math.random().toString(36).substr(2, 9)`. -/
structure LogCall where
  message : String
  error : String
  severity : Severity
  metadata : Option JsValue
  component : Option String
  screen : Option String
  now : Nat
  rand : String

/-- ErrorLog built by `logError` (src/utils/NetworkManager.ts, lines 369-379):
id is the time string concatenated with the random suffix, the `error` field
is `message: error`, and `stack` is `metadata?.stack`. -/
def buildErrorLog (c : LogCall) : ErrorLog :=
  { id := toString c.now ++ c.rand
    timestamp := c.now
    error := c.message ++ ": " ++ c.error
    stack := c.metadata.bind (fun m => m.prop "stack")
    component := c.component
    screen := c.screen
    userAction := none
    severity := c.severity
    resolved := false
    metadata := c.metadata }

/-- State of the `ErrorHandler` singleton: the in-memory log list and the
underlying persistent store it writes through `storageManager`. -/
structure EHState where
  errorLogs : List ErrorLog
  store : Store

/-- Shallow embedding of one `ErrorHandler.logError` call
(src/utils/NetworkManager.ts, lines 361-409): build the `ErrorLog`, prepend it
(`unshift`), truncate to 100 entries when over the cap, and persist the whole
list with `storageManager.setItem` under the `error_logs` key.  A
persistence failure is caught and only logged to the console, leaving the
store as `setItem` left it (unchanged, since every `setItem` error branch
precedes the write); the critical-severity alert and the `__DEV__` console
output have no effect on this state. -/
def logErrorStep (cfg : StorageConfig) (st : EHState) (c : LogCall) : EHState :=
  let log := buildErrorLog c
  let l1 := log :: st.errorLogs
  let l2 := if l1.length > 100 then l1.take 100 else l1
  { errorLogs := l2
    store := (StorageManager.setItem cfg st.store c.now "error_logs"
      (.arr (l2.map errorLogToJs))).2 }

/-- Finite sequence of `logError` calls run against a freshly initialized
`ErrorHandler` (empty in-memory list) over an arbitrary initial store. -/
def runLogs (cfg : StorageConfig) (init : Store) (calls : List LogCall) : EHState :=
  calls.foldl (logErrorStep cfg) { errorLogs := [], store := init }

/-- Error object thrown inside `NetworkManager.makeRequest`: the message, the
optional HTTP status, and whether the failure was a timeout abort
(the error name being AbortError). -/
structure ApiError where
  message : String
  status : Option Nat
  isAbort : Bool
  deriving DecidableEq, Repr

/-- Outcome of one `fetch` attempt as seen by the retry loop: a server
response with the given status, a timeout abort, or a transport failure
(fetch rejecting). -/
inductive FetchResult where
  | response : Nat → FetchResult
  | abort : FetchResult
  | transportFailure : FetchResult
  deriving DecidableEq, Repr

/-- Test `response.ok`: status in the inclusive range 200-299. -/
def responseOk (s : Nat) : Bool := 200 ≤ s && s ≤ 299

/-- Error built from a non-ok response (best-effort body parse modelled as the
empty object, so the message falls back to `HTTP <status>`). -/
def httpError (s : Nat) : ApiError :=
  { message := "HTTP " ++ toString s, status := some s, isAbort := false }

/-- Condition of the do-not-retry break (src/utils/NetworkManager.ts,
line 102): the error name is AbortError, or the error status is 401 or 403. -/
def noRetry (e : ApiError) : Bool :=
  e.isAbort || e.status == some 401 || e.status == some 403

/-- Observable trace of one `makeRequest` call: the final outcome (successful
status or last error), the number of `fetch` attempts made, and the list of
`retryDelay` waits performed between consecutive attempts. -/
structure RequestTrace where
  outcome : Except ApiError Nat
  attempts : Nat
  delays : List Nat
  deriving Repr

/-- Retry loop of `NetworkManager.makeRequest` (src/utils/NetworkManager.ts,
lines 62-111), run from attempt index `attempt` with `left` loop iterations
still allowed (`left = retries + 1 - attempt`; the `left = 0` case is dead for
top-level calls).  A successful (`response.ok`) attempt returns immediately.
A failed attempt either breaks out (abort or auth-class status 401/403), or,
when iterations remain (`attempt < retries`), waits `retryDelay` ms and
continues; otherwise the loop ends with the last error. -/
def makeRequestGo (responses : Nat → FetchResult) (retryDelay : Nat) :
    Nat → Nat → RequestTrace
  | _, 0 =>
    { outcome := .error { message := "Network request failed", status := none, isAbort := false }
      attempts := 0, delays := [] }
  | attempt, left + 1 =>
    match responses attempt with
    | .response s =>
      if responseOk s then { outcome := .ok s, attempts := 1, delays := [] }
      else if noRetry (httpError s) then
        { outcome := .error (httpError s), attempts := 1, delays := [] }
      else
        match left with
        | 0 => { outcome := .error (httpError s), attempts := 1, delays := [] }
        | l + 1 =>
          let rest := makeRequestGo responses retryDelay (attempt + 1) (l + 1)
          { outcome := rest.outcome, attempts := rest.attempts + 1
            delays := retryDelay :: rest.delays }
    | .abort =>
      { outcome := .error { message := "Aborted", status := none, isAbort := true }
        attempts := 1, delays := [] }
    | .transportFailure =>
      let e : ApiError := { message := "Network request failed", status := none, isAbort := false }
      match left with
      | 0 => { outcome := .error e, attempts := 1, delays := [] }
      | l + 1 =>
        let rest := makeRequestGo responses retryDelay (attempt + 1) (l + 1)
        { outcome := rest.outcome, attempts := rest.attempts + 1
          delays := retryDelay :: rest.delays }

/-- Shallow embedding of `NetworkManager.makeRequest`
(src/utils/NetworkManager.ts, lines 62-116) with the merged configuration
values `retries` and `retryDelay`: run the attempt loop over indices
`0..retries`; when it ends without a successful return, report the last error
to `errorHandler.handleNetworkError` (the returned boolean) and propagate it.
The verb wrappers `get`/`post`/`put`/`delete`/`patch` delegate here and only
choose the HTTP method, which does not influence the loop. -/
def makeRequest (responses : Nat → FetchResult) (retries retryDelay : Nat) :
    RequestTrace × Bool :=
  let t := makeRequestGo responses retryDelay 0 (retries + 1)
  match t.outcome with
  | .ok _ => (t, false)
  | .error _ => (t, true)

/-- Notification types (src/utils/NotificationManager.ts, `Notification`). -/
inductive NotifType where
  | like
  | comment
  | quest
  | token
  | friend
  | system
  deriving DecidableEq, Repr

/-- Serialized name of a notification type. -/
def notifTypeKey : NotifType → String
  | .like => "like"
  | .comment => "comment"
  | .quest => "quest"
  | .token => "token"
  | .friend => "friend"
  | .system => "system"

/-- Per-type notification preferences
(src/utils/NotificationManager.ts, `NotificationPreferences`). -/
structure NotificationPreferences where
  like : Bool
  comment : Bool
  quest : Bool
  token : Bool
  friend : Bool
  system : Bool
  deriving DecidableEq, Repr

/-- Default preferences installed by the `NotificationManager` constructor:
every type enabled. -/
def defaultPreferences : NotificationPreferences :=
  { like := true, comment := true, quest := true, token := true
    friend := true, system := true }

/-- Argument of `updatePreferences`: `Partial<NotificationPreferences>`. -/
structure PreferencesPatch where
  like : Option Bool
  comment : Option Bool
  quest : Option Bool
  token : Option Bool
  friend : Option Bool
  system : Option Bool

/-- Preference lookup `this.preferences[type]`. -/
def getPref (p : NotificationPreferences) : NotifType → Bool
  | .like => p.like
  | .comment => p.comment
  | .quest => p.quest
  | .token => p.token
  | .friend => p.friend
  | .system => p.system

/-- Merge performed by `NotificationManager.updatePreferences`
(src/utils/NotificationManager.ts, lines 390-403):
`this.preferences = { ...this.preferences, ...preferences }`; the subsequent
`savePreferences` persists the merged record best-effort (its failures are
caught and only reported). -/
def updatePreferences (p : NotificationPreferences) (u : PreferencesPatch) :
    NotificationPreferences :=
  { like := u.like.getD p.like
    comment := u.comment.getD p.comment
    quest := u.quest.getD p.quest
    token := u.token.getD p.token
    friend := u.friend.getD p.friend
    system := u.system.getD p.system }

/-- Notification record (src/utils/NotificationManager.ts, lines 5-15). -/
structure Notification where
  id : String
  type : NotifType
  title : String
  message : String
  timestamp : Nat
  read : Bool
  data : Option JsValue
  userId : Option String
  postId : Option String

/-- Runtime shape serialized for one `Notification`: keys in the order of the
object literal of `createNotification`, `undefined`-valued keys omitted. -/
def notificationToJs (n : Notification) : JsValue :=
  .obj ([("id", .str n.id), ("type", .str (notifTypeKey n.type)),
    ("title", .str n.title), ("message", .str n.message),
    ("timestamp", .num n.timestamp), ("read", .bool n.read)]
    ++ optField "data" n.data
    ++ optField "userId" (n.userId.map .str)
    ++ optField "postId" (n.postId.map .str))

/-- State of the `NotificationManager` singleton: the in-memory notification
list and the underlying store written through `storageManager`. -/
structure NotifState where
  notifications : List Notification
  store : Store

/-- Shallow embedding of `NotificationManager.createNotification`
(src/utils/NotificationManager.ts, lines 136-185).  An empty title or message
makes the validation throw; the catch reports the error and returns the empty
id with nothing mutated.  A disabled per-type preference logs and returns the
empty id before any mutation.  Otherwise the notification is built (with
trimmed title and message), prepended, the list truncated to 100, the list
persisted via `storageManager.setItem` under the `notifications` key (whose failure
`saveNotifications` catches and swallows), the in-app alert shown, and the
new id returned. -/
def createNotification (cfg : StorageConfig) (prefs : NotificationPreferences)
    (st : NotifState) (now : Nat) (rand : String) (t : NotifType)
    (title message : String) (data : Option JsValue) : String × NotifState :=
  if title = "" ∨ message = "" then ("", st)
  else if !(getPref prefs t) then ("", st)
  else
    let n : Notification :=
      { id := toString now ++ rand, type := t, title := title.trim
        message := message.trim, timestamp := now, read := false
        data := data, userId := none, postId := none }
    let l1 := n :: st.notifications
    let l2 := if l1.length > 100 then l1.take 100 else l1
    (n.id,
      { notifications := l2
        store := (StorageManager.setItem cfg st.store now "notifications"
          (.arr (l2.map notificationToJs))).2 })

theorem storeGet_storeSet (s : Store) (k : String) (v : RawValue) :
    storeGet (storeSet s k v) k = some v := by
  simp [storeGet, storeSet, List.find?]

theorem storeGet_storeRemove (s : Store) (k : String) :
    storeGet (storeRemove s k) k = none := by
  induction s with
  | nil => rfl
  | cons p tl ih =>
    by_cases h : p.1 = k
    · have hstep : storeRemove (p :: tl) k = storeRemove tl k := by
        simp [storeRemove, List.filter_cons, h]
      rw [hstep]; exact ih
    · have hstep : storeRemove (p :: tl) k = p :: storeRemove tl k := by
        simp [storeRemove, List.filter_cons, h]
      rw [hstep]
      simpa [storeGet, List.find?, h] using ih

theorem setItem_ok_iff (cfg : StorageConfig) (store : Store) (now : Nat) (key : String)
    (value : JsValue) :
    (StorageManager.setItem cfg store now key value).1 = .ok () ↔
      (key ≠ "" ∧ value.isNull = false ∧
        ¬ effectiveMaxSize cfg < sizeInMB (stringifyCacheItem (mkCacheItem cfg now value))) := by
  unfold StorageManager.setItem
  by_cases h1 : key = ""
  · simp [h1]
  · by_cases h2 : value.isNull
    · simp [h1, h2]
    · by_cases h3 : effectiveMaxSize cfg < sizeInMB (stringifyCacheItem (mkCacheItem cfg now value))
      · simp [h1, h2, h3]
      · simp [h1, h2, h3]

theorem setItem_snd_of_ok (cfg : StorageConfig) (store : Store) (now : Nat) (key : String)
    (value : JsValue)
    (hok : (StorageManager.setItem cfg store now key value).1 = .ok ()) :
    (StorageManager.setItem cfg store now key value).2
      = storeSet store key (.cache (mkCacheItem cfg now value)) := by
  obtain ⟨h1, h2, h3⟩ := (setItem_ok_iff cfg store now key value).mp hok
  unfold StorageManager.setItem
  simp [h1, h2, h3]

theorem mkCacheItem_of_maxAge (cfg : StorageConfig) (now : Nat) (value : JsValue)
    (m : Nat) (hage : cfg.maxAge = some m) (hm : 0 < m) :
    mkCacheItem cfg now value
      = { data := value, timestamp := now, expiresAt := some (now + m) } := by
  obtain ⟨m1, rfl⟩ : ∃ m1, m = m1 + 1 := ⟨m - 1, by omega⟩
  simp [mkCacheItem, hage]

/-- Claim C10: `StorageManager.getItem` never throws or rejects: for every key
(including the empty string, whose validation error is caught by the same
handler), every underlying store read outcome — a stored slot, an absent slot,
or a read failure — and every unparsable payload, the call resolves (returns
`Except.ok`) with either a stored value or null, never propagating an
exception to the caller. -/
theorem c10_getItem_never_throws (read : StorageManager.ReadOutcome) (now : Nat)
    (key : String) :
    ∃ r, StorageManager.getItem read now key = .ok r := by
  unfold StorageManager.getItem
  cases h : StorageManager.getItemTry read now key with
  | ok r => exact ⟨r, rfl⟩
  | error e => exact ⟨(none, true), rfl⟩

/-- Claim C4: when the serialized `CacheItem` wrapper exceeds the configured
`maxSize` in MB, `setItem` fails with the SizeExceeded error and the
underlying store is returned completely unchanged — the size check precedes
the `AsyncStorage.setItem` write, so no partial write occurs. -/
theorem c4_size_rejection (cfg : StorageConfig) (store : Store) (now : Nat)
    (key : String) (value : JsValue) (q : Rat)
    (hkey : key ≠ "") (hnull : value.isNull = false)
    (hq : cfg.maxSize = some q) (hq0 : q ≠ 0)
    (hsize : q < sizeInMB (stringifyCacheItem (mkCacheItem cfg now value))) :
    StorageManager.setItem cfg store now key value = (.error .sizeExceeded, store) := by
  have heff : effectiveMaxSize cfg = q := by simp [effectiveMaxSize, hq, hq0]
  unfold StorageManager.setItem
  rw [heff]
  simp [hkey, hnull, hsize]

/-- Claim C9: every `CacheItem` written by `setItem` while a (truthy) `maxAge`
is configured carries `expiresAt` equal to exactly its own write-time
`timestamp` plus `maxAge`. -/
theorem c9_expiresAt_invariant (cfg : StorageConfig) (store : Store) (now : Nat)
    (key : String) (value : JsValue) (m : Nat)
    (hage : cfg.maxAge = some m) (hm : 0 < m)
    (hok : (StorageManager.setItem cfg store now key value).1 = .ok ()) :
    ∃ it : CacheItem,
      storeGet (StorageManager.setItem cfg store now key value).2 key = some (.cache it) ∧
      it.timestamp = now ∧ it.expiresAt = some (it.timestamp + m) := by
  refine ⟨mkCacheItem cfg now value, ?_, ?_, ?_⟩
  · rw [setItem_snd_of_ok cfg store now key value hok]
    exact storeGet_storeSet store key _
  · rw [mkCacheItem_of_maxAge cfg now value m hage hm]
  · rw [mkCacheItem_of_maxAge cfg now value m hage hm]

theorem getItemStore_expired (store : Store) (r : Nat) (key : String) (it : CacheItem)
    (e : Nat) (hkey : key ≠ "") (hget : storeGet store key = some (.cache it))
    (hexp : it.expiresAt = some e) (he : e ≠ 0) (hlt : e < r) :
    StorageManager.getItemStore store r key = (none, storeRemove store key) := by
  unfold StorageManager.getItemStore StorageManager.getItem StorageManager.getItemTry
  rw [hget]
  simp [hkey, hexp, he, hlt]

theorem getItemStore_live (store : Store) (r : Nat) (key : String) (it : CacheItem)
    (e : Nat) (hkey : key ≠ "") (hget : storeGet store key = some (.cache it))
    (hexp : it.expiresAt = some e) (hge : ¬ (e ≠ 0 ∧ e < r)) :
    StorageManager.getItemStore store r key = (some it.data, store) := by
  unfold StorageManager.getItemStore StorageManager.getItem StorageManager.getItemTry
  rw [hget]
  simp [hkey, hexp, hge]

/-- Claim C3: an item stored by `setItem` at time `now` while `maxAge` is
configured is expired for any `getItem` read at a time strictly after
`now + maxAge`: the read returns null and, as a side effect, deletes the entry
from the underlying key-value store (lazy expiry). -/
theorem c3_expiry_invariant (cfg : StorageConfig) (store : Store) (now : Nat)
    (key : String) (value : JsValue) (m r : Nat)
    (hage : cfg.maxAge = some m) (hm : 0 < m)
    (hok : (StorageManager.setItem cfg store now key value).1 = .ok ())
    (hr : now + m < r) :
    (StorageManager.getItemStore
        ((StorageManager.setItem cfg store now key value).2) r key).1 = none ∧
    storeGet (StorageManager.getItemStore
        ((StorageManager.setItem cfg store now key value).2) r key).2 key = none := by
  obtain ⟨h1, _, _⟩ := (setItem_ok_iff cfg store now key value).mp hok
  have hsnd := setItem_snd_of_ok cfg store now key value hok
  have hitem := mkCacheItem_of_maxAge cfg now value m hage hm
  have hget : storeGet (StorageManager.setItem cfg store now key value).2 key
      = some (.cache (mkCacheItem cfg now value)) := by
    rw [hsnd]; exact storeGet_storeSet store key _
  have hmain := getItemStore_expired ((StorageManager.setItem cfg store now key value).2)
    r key (mkCacheItem cfg now value) (now + m) h1 hget (by rw [hitem]) (by omega) hr
  rw [hmain]
  exact ⟨rfl, storeGet_storeRemove _ key⟩

/-- Claim C7: round-trip idempotence of the cache: after a successful
`setItem(k, v)` at time `now` with a (truthy) configured `maxAge`, a
`getItem(k)` read at any time up to `now + maxAge` (before expiry), with no
intervening corruption, returns exactly the stored value `v` (JsValue equality
is deep equality) and leaves the store unchanged. -/
theorem c7_round_trip (cfg : StorageConfig) (store : Store) (now : Nat)
    (key : String) (value : JsValue) (m r : Nat)
    (hage : cfg.maxAge = some m) (hm : 0 < m)
    (hok : (StorageManager.setItem cfg store now key value).1 = .ok ())
    (hr : r ≤ now + m) :
    (StorageManager.getItemStore
        ((StorageManager.setItem cfg store now key value).2) r key).1 = some value ∧
    (StorageManager.getItemStore
        ((StorageManager.setItem cfg store now key value).2) r key).2
      = (StorageManager.setItem cfg store now key value).2 := by
  obtain ⟨h1, _, _⟩ := (setItem_ok_iff cfg store now key value).mp hok
  have hsnd := setItem_snd_of_ok cfg store now key value hok
  have hitem := mkCacheItem_of_maxAge cfg now value m hage hm
  have hget : storeGet (StorageManager.setItem cfg store now key value).2 key
      = some (.cache (mkCacheItem cfg now value)) := by
    rw [hsnd]; exact storeGet_storeSet store key _
  have hmain := getItemStore_live ((StorageManager.setItem cfg store now key value).2)
    r key (mkCacheItem cfg now value) (now + m) h1 hget (by rw [hitem]) (by omega)
  rw [hmain]
  constructor
  · rw [hitem]
  · rfl

theorem makeRequestGo_const500 (retryDelay : Nat) :
    ∀ (left attempt : Nat),
      makeRequestGo (fun _ => .response 500) retryDelay attempt (left + 1)
        = { outcome := .error (httpError 500), attempts := left + 1
            delays := List.replicate left retryDelay } := by
  intro left
  induction left with
  | zero => intro attempt; rfl
  | succ l ih =>
    intro attempt
    rw [makeRequestGo]
    simp [responseOk, noRetry, httpError, ih (attempt + 1), List.replicate_succ]

/-- Claim C2: against an endpoint that fails every attempt with HTTP 500, a
`makeRequest` call (to which every verb method such as `get` delegates) with
merged configuration `retries`/`retryDelay` makes exactly `retries + 1` fetch
attempts, waits exactly `retryDelay` ms between each pair of consecutive
attempts (a fixed delay, not exponential), reports the last error (HTTP 500)
to `ErrorHandler` and then propagates that error to the caller. -/
theorem c2_retry_termination (retries retryDelay : Nat) :
    (makeRequest (fun _ => .response 500) retries retryDelay).1.outcome
        = .error (httpError 500) ∧
    (makeRequest (fun _ => .response 500) retries retryDelay).1.attempts = retries + 1 ∧
    (makeRequest (fun _ => .response 500) retries retryDelay).1.delays
        = List.replicate retries retryDelay ∧
    (makeRequest (fun _ => .response 500) retries retryDelay).2 = true := by
  have h := makeRequestGo_const500 retryDelay retries 0
  unfold makeRequest
  rw [h]
  exact ⟨rfl, rfl, rfl, rfl⟩

/-- Claim C6: against an endpoint answering an auth-class status (401 or 403),
`makeRequest` (hence every verb call) makes exactly one fetch attempt, never
waits or retries, and fails by reporting and propagating the error. -/
theorem c6_auth_no_retry (s retries retryDelay : Nat) (hs : s = 401 ∨ s = 403) :
    (makeRequest (fun _ => .response s) retries retryDelay).1.outcome
        = .error (httpError s) ∧
    (makeRequest (fun _ => .response s) retries retryDelay).1.attempts = 1 ∧
    (makeRequest (fun _ => .response s) retries retryDelay).1.delays = [] ∧
    (makeRequest (fun _ => .response s) retries retryDelay).2 = true := by
  rcases hs with rfl | rfl <;>
    · unfold makeRequest
      rw [makeRequestGo]
      simp [responseOk, noRetry, httpError]

/-- Claim C8: when the per-type preference of a notification type is disabled
(for example after `updatePreferences` turned it off), `createNotification` of
that type returns the empty string as id and leaves the whole state — the
in-memory notification list and the underlying store — completely unchanged:
a silent no-op, not an error. -/
theorem c8_preference_gating (cfg : StorageConfig) (prefs : NotificationPreferences)
    (st : NotifState) (now : Nat) (rand : String) (t : NotifType)
    (title message : String) (data : Option JsValue)
    (hpref : getPref prefs t = false) :
    createNotification cfg prefs st now rand t title message data = ("", st) := by
  unfold createNotification
  by_cases hv : title = "" ∨ message = ""
  · simp [hv]
  · simp [hv, hpref]

/-- Claim C1 (evidence): a concrete reachable state of the `ErrorHandler` —
one log, created by `logError` and then marked resolved by
`markErrorResolved` — in which every log has `resolved = true`, yet
`getUnresolvedErrors` returns the full list instead of the empty one: the
filter `log => !log.resolve` tests a property that does not exist on
`ErrorLog`, so it keeps every entry, contradicting the contract that exactly
the logs with `resolved = false` are returned. -/
theorem c1_unresolved_filter_includes_resolved :
    getUnresolvedErrors
        (markErrorResolved
          [buildErrorLog ⟨"Network Error", "boom", .medium, none, none, none, 5, "abc"⟩]
          (buildErrorLog ⟨"Network Error", "boom", .medium, none, none, none, 5, "abc"⟩).id)
      = markErrorResolved
          [buildErrorLog ⟨"Network Error", "boom", .medium, none, none, none, 5, "abc"⟩]
          (buildErrorLog ⟨"Network Error", "boom", .medium, none, none, none, 5, "abc"⟩).id
    ∧ (markErrorResolved
          [buildErrorLog ⟨"Network Error", "boom", .medium, none, none, none, 5, "abc"⟩]
          (buildErrorLog ⟨"Network Error", "boom", .medium, none, none, none, 5, "abc"⟩).id).all
        (fun log => log.resolved) = true :=
  ⟨rfl, rfl⟩

theorem take_cap_step (x : ErrorLog) (l : List ErrorLog) :
    (if (x :: l).length > 100 then (x :: l).take 100 else (x :: l)) = (x :: l).take 100 := by
  by_cases hlen : (x :: l).length > 100
  · rw [if_pos hlen]
  · rw [if_neg hlen]
    exact (List.take_of_length_le (by omega)).symm

theorem take_cons_take (x : ErrorLog) (l : List ErrorLog) :
    (x :: l.take 100).take 100 = (x :: l).take 100 := by
  show (x :: l.take 100).take (99 + 1) = (x :: l).take (99 + 1)
  rw [List.take_succ_cons, List.take_succ_cons, List.take_take]
  simp

theorem runLogs_foldl (cfg : StorageConfig) :
    ∀ (calls : List LogCall) (st : EHState) (L : List ErrorLog),
      st.errorLogs = L.take 100 →
      (List.foldl (logErrorStep cfg) st calls).errorLogs
        = ((calls.map buildErrorLog).reverse ++ L).take 100 := by
  intro calls
  induction calls with
  | nil =>
    intro st L h
    simpa using h
  | cons c cs ih =>
    intro st L h
    rw [List.foldl_cons]
    have hstep : (logErrorStep cfg st c).errorLogs = (buildErrorLog c :: L).take 100 := by
      simp only [logErrorStep]
      rw [h, take_cap_step, take_cons_take]
    rw [ih (logErrorStep cfg st c) (buildErrorLog c :: L) hstep]
    simp [List.append_assoc]

theorem logErrorStep_store_of_fit (cfg : StorageConfig) (st : EHState) (c : LogCall)
    (hfit : ¬ effectiveMaxSize cfg < sizeInMB (stringifyCacheItem (mkCacheItem cfg c.now
        (.arr ((logErrorStep cfg st c).errorLogs.map errorLogToJs))))) :
    storeGet (logErrorStep cfg st c).store "error_logs"
      = some (.cache (mkCacheItem cfg c.now
          (.arr ((logErrorStep cfg st c).errorLogs.map errorLogToJs)))) := by
  have hok := (setItem_ok_iff cfg st.store c.now "error_logs"
      (.arr ((logErrorStep cfg st c).errorLogs.map errorLogToJs))).mpr
    ⟨by simp, rfl, hfit⟩
  have hstore : (logErrorStep cfg st c).store
      = (StorageManager.setItem cfg st.store c.now "error_logs"
          (.arr ((logErrorStep cfg st c).errorLogs.map errorLogToJs))).2 := rfl
  rw [hstore, setItem_snd_of_ok _ _ _ _ _ hok]
  exact storeGet_storeSet _ _ _

/-- Claim C5: after any nonempty finite sequence of `logError` calls on a
fresh `ErrorHandler` (the empty-sequence case is trivial: the list is empty
and nothing has been persisted), the in-memory log list is exactly the most
recently logged entries in reverse-chronological order — the whole reversed
call sequence when it fits, its 100 newest entries otherwise (oldest evicted
first) — hence has length at most 100; and, provided the final persist fits
the configured size limit, the persisted `error_logs` entry holds exactly the
serialization of that same list. -/
theorem c5_log_cap_invariant (cfg : StorageConfig) (init : Store)
    (calls : List LogCall) (c : LogCall)
    (hfit : ¬ effectiveMaxSize cfg < sizeInMB (stringifyCacheItem (mkCacheItem cfg c.now
      (.arr ((((calls ++ [c]).map buildErrorLog).reverse.take 100).map errorLogToJs))))) :
    (runLogs cfg init (calls ++ [c])).errorLogs
        = ((calls ++ [c]).map buildErrorLog).reverse.take 100 ∧
    (runLogs cfg init (calls ++ [c])).errorLogs.length ≤ 100 ∧
    storeGet (runLogs cfg init (calls ++ [c])).store "error_logs"
        = some (.cache (mkCacheItem cfg c.now
            (.arr ((runLogs cfg init (calls ++ [c])).errorLogs.map errorLogToJs)))) := by
  have hlogs : (runLogs cfg init (calls ++ [c])).errorLogs
      = ((calls ++ [c]).map buildErrorLog).reverse.take 100 := by
    have h := runLogs_foldl cfg (calls ++ [c]) { errorLogs := [], store := init } [] rfl
    simpa [runLogs] using h
  have hsplit : runLogs cfg init (calls ++ [c])
      = logErrorStep cfg (runLogs cfg init calls) c := by
    simp [runLogs, List.foldl_append]
  refine ⟨hlogs, ?_, ?_⟩
  · rw [hlogs]; exact List.length_take_le 100 _
  · rw [hsplit]
    rw [hsplit] at hlogs
    rw [← hlogs] at hfit
    exact logErrorStep_store_of_fit cfg (runLogs cfg init calls) c hfit

theorem c3_expiry_invariant_witness :
    (StorageManager.getItemStore
        ((StorageManager.setItem ⟨some 1000, some 50, false⟩ [] 0 "k"
            (.obj [("a", .num 1)])).2) 1500 "k").1 = none ∧
    storeGet (StorageManager.getItemStore
        ((StorageManager.setItem ⟨some 1000, some 50, false⟩ [] 0 "k"
            (.obj [("a", .num 1)])).2) 1500 "k").2 "k" = none :=
  c3_expiry_invariant ⟨some 1000, some 50, false⟩ [] 0 "k" (.obj [("a", .num 1)]) 1000 1500
    rfl (by decide) (by rfl) (by decide)

theorem c4_size_rejection_witness :
    StorageManager.setItem ⟨some 1000, some (Rat.divInt 1 1048576), false⟩ [] 0 "k" (.num 1)
      = (.error .sizeExceeded, []) :=
  c4_size_rejection ⟨some 1000, some (Rat.divInt 1 1048576), false⟩ [] 0 "k" (.num 1)
    (Rat.divInt 1 1048576) (by decide) rfl rfl (by decide) (by decide)

set_option maxRecDepth 100000 in
theorem c5_log_cap_invariant_witness :
    (runLogs defaultStorageConfig []
        [⟨"Network Error", "boom", .medium, none, none, none, 5, "abc"⟩]).errorLogs
        = ([⟨"Network Error", "boom", .medium, none, none, none, 5, "abc"⟩].map
            buildErrorLog).reverse.take 100 ∧
    (runLogs defaultStorageConfig []
        [⟨"Network Error", "boom", .medium, none, none, none, 5, "abc"⟩]).errorLogs.length
        ≤ 100 ∧
    storeGet (runLogs defaultStorageConfig []
        [⟨"Network Error", "boom", .medium, none, none, none, 5, "abc"⟩]).store "error_logs"
        = some (.cache (mkCacheItem defaultStorageConfig 5
            (.arr ((runLogs defaultStorageConfig []
              [⟨"Network Error", "boom", .medium, none, none, none, 5, "abc"⟩]).errorLogs.map
                errorLogToJs)))) :=
  c5_log_cap_invariant defaultStorageConfig [] []
    ⟨"Network Error", "boom", .medium, none, none, none, 5, "abc"⟩ (by decide)

theorem c6_auth_no_retry_witness :
    (makeRequest (fun _ => .response 401) 3 1000).1.outcome = .error (httpError 401) ∧
    (makeRequest (fun _ => .response 401) 3 1000).1.attempts = 1 ∧
    (makeRequest (fun _ => .response 401) 3 1000).1.delays = [] ∧
    (makeRequest (fun _ => .response 401) 3 1000).2 = true :=
  c6_auth_no_retry 401 3 1000 (Or.inl rfl)

theorem c7_round_trip_witness :
    (StorageManager.getItemStore
        ((StorageManager.setItem ⟨some 1000, some 50, false⟩ [] 0 "k"
            (.obj [("a", .num 1)])).2) 500 "k").1 = some (.obj [("a", .num 1)]) ∧
    (StorageManager.getItemStore
        ((StorageManager.setItem ⟨some 1000, some 50, false⟩ [] 0 "k"
            (.obj [("a", .num 1)])).2) 500 "k").2
      = (StorageManager.setItem ⟨some 1000, some 50, false⟩ [] 0 "k"
            (.obj [("a", .num 1)])).2 :=
  c7_round_trip ⟨some 1000, some 50, false⟩ [] 0 "k" (.obj [("a", .num 1)]) 1000 500
    rfl (by decide) (by rfl) (by decide)

theorem c8_preference_gating_witness :
    createNotification defaultStorageConfig
        (updatePreferences defaultPreferences ⟨some false, none, none, none, none, none⟩)
        ⟨[], []⟩ 7 "xyz" .like "New Like" "Someone liked your post" none
      = ("", ⟨[], []⟩) :=
  c8_preference_gating defaultStorageConfig
    (updatePreferences defaultPreferences ⟨some false, none, none, none, none, none⟩)
    ⟨[], []⟩ 7 "xyz" .like "New Like" "Someone liked your post" none (by rfl)

theorem c9_expiresAt_invariant_witness :
    ∃ it : CacheItem,
      storeGet (StorageManager.setItem ⟨some 1000, some 50, false⟩ [] 0 "k"
          (.obj [("a", .num 1)])).2 "k" = some (.cache it) ∧
      it.timestamp = 0 ∧ it.expiresAt = some (it.timestamp + 1000) :=
  c9_expiresAt_invariant ⟨some 1000, some 50, false⟩ [] 0 "k" (.obj [("a", .num 1)]) 1000
    rfl (by decide) (by rfl)
